import Mathlib

/-!
# ADEGuard — verification of the core algorithms

Shallow embedding of the algorithmic core of the ADEGuard repository:

* the entity-span annotator (`HighlightedText.renderText` in
  `src/components/Navbar.tsx`),
* the PCM audio decoding helpers (`decodeBase64` / `decodeAudioData` in
  `src/components/HistorySidebar.tsx`),
* the playback session logic (`playTTS` in `src/components/HistorySidebar.tsx`),
* the analysis and chat service wrappers (`analyzeClinicalContent` /
  `sendChatMessage` in `src/services/geminiService.ts`).

Strings are embedded as `List Char`; JavaScript's `String.prototype.split`
with a capturing, case-insensitive regex of an escaped literal is embedded
as an explicit left-to-right, non-overlapping scan.
-/

namespace ADEGuard

/-- Entity categories, from `types` (`EntityType` enum). -/
inductive EntityType where
  | DRUG
  | ADE
  | MODIFIER
  | INDICATION
deriving DecidableEq, Repr

/-- Severity levels, from `types` (`SeverityLevel` enum). -/
inductive SeverityLevel where
  | MILD
  | MODERATE
  | SEVERE
  | UNKNOWN
deriving DecidableEq, Repr

/-- An extracted entity (`Entity` in `types`): a literal text, a category and
an optional severity and description. -/
structure Entity where
  text : List Char
  type : EntityType
  severity : Option SeverityLevel := none
  description : Option (List Char) := none
deriving DecidableEq, Repr

/-- One output part of the annotator.  The source represents a part as
`{ text, type: 'text' | 'match', entity }` where `entity` is non-null exactly
when `type` is `'match'`; we fuse the tag into the option. -/
structure Segment where
  text : List Char
  entity : Option Entity := none
deriving DecidableEq, Repr

/-- Embeds `a.toLowerCase() === b.toLowerCase()` on embedded strings. -/
def lowerEq (a b : List Char) : Bool :=
  a.map Char.toLower == b.map Char.toLower

/-- Does `needle` match case-insensitively at the start of `hay`?  This is the
match test of the regex `new RegExp(escapeRegExp(entity.text), 'i')` at one
position: the pattern is an escaped literal, so it matches exactly its own
characters up to case. -/
def ciStartsWith : List Char → List Char → Bool
  | [], _ => true
  | _ :: _, [] => false
  | n :: ns, h :: hs => (Char.toLower n == Char.toLower h) && ciStartsWith ns hs

/-- Embeds `"abc".split(/()/gi)` in JavaScript: an empty pattern splits a non-empty
string into its characters with empty captured separators interleaved,
`["a", "", "b", "", "c"]`. -/
def emptySplit : List Char → List (List Char)
  | [] => []
  | [c] => [[c]]
  | c :: c' :: rest => [c] :: [] :: emptySplit (c' :: rest)

/-- The scanning loop of `String.prototype.split` with a capturing group
around a non-empty escaped literal and the `i` flag: walk the string left to
right; at each position, if the literal matches case-insensitively, emit the
accumulated non-match run, emit the matched substring (in the haystack's
original casing) and restart after it; otherwise advance one character.
`acc` is the reversed current non-match run.  `fuel` bounds the number of
scan steps so the recursion is structural; the caller passes the haystack
length, which always suffices because every step consumes at least one
character, so the fuel-exhausted fallback is unreachable there. -/
def ciScan (needle : List Char) : Nat → List Char → List Char → List (List Char)
  | _, acc, [] => [acc.reverse]
  | 0, acc, h :: hs => [acc.reverse ++ h :: hs]
  | fuel + 1, acc, h :: hs =>
    if needle ≠ [] ∧ ciStartsWith needle (h :: hs) = true then
      acc.reverse :: (h :: hs).take needle.length ::
        ciScan needle fuel [] ((h :: hs).drop needle.length)
    else
      ciScan needle fuel (h :: acc) hs

/-- Embeds `part.text.split(new RegExp('(' + escapeRegExp(entity.text) + ')', 'gi'))`:
the list of alternating non-match and match pieces.  The `g` flag is ignored
by `split`; an empty literal splits into single characters. -/
def ciSplitKeep (needle hay : List Char) : List (List Char) :=
  if needle = [] then emptySplit hay else ciScan needle hay.length [] hay

/-- The body of the `sortedEntities.forEach` loop in `renderText`
(`src/components/Navbar.tsx` lines 113-135): parts already tagged by an
earlier entity are pushed through untouched; each still-plain part is split
on the entity's literal, empty pieces are dropped (`if (!str) return`), and
each piece equal to the entity's text up to case becomes a tagged part. -/
def processEntity (e : Entity) (parts : List Segment) : List Segment :=
  parts.flatMap fun part =>
    match part.entity with
    | some _ => [part]
    | none =>
      (ciSplitKeep e.text part.text).filterMap fun s =>
        if s = [] then none
        else if lowerEq s e.text then some ⟨s, some e⟩
        else some ⟨s, none⟩

/-- Stable insertion of an entity into a list sorted by descending literal
length of `text`: the inserted (earlier-encountered) entity goes before any
later entity of equal length, matching JavaScript's stable `Array.sort`. -/
def insertByLen (e : Entity) : List Entity → List Entity
  | [] => [e]
  | x :: xs =>
    if e.text.length ≥ x.text.length then e :: x :: xs
    else x :: insertByLen e xs

/-- Embeds `[...entities].sort((a, b) => b.text.length - a.text.length)`: a stable
sort by descending literal length of the `text` field. -/
def sortEntities (entities : List Entity) : List Entity :=
  entities.foldr insertByLen []

/-- Embeds `renderText` (`src/components/Navbar.tsx` lines 106-135): start from one
plain part holding the whole narrative and fold every entity, longest first,
through `processEntity`. -/
def renderText (text : List Char) (entities : List Entity) : List Segment :=
  (sortEntities entities).foldl (fun parts e => processEntity e parts)
    [{ text := text, entity := none }]

/-- The annotator as seen by callers of `HighlightedText`: an empty narrative
or an empty entity list renders the narrative as one plain block
(`if (!text || entities.length === 0)` guard); otherwise `renderText` runs. -/
def annotate (text : List Char) (entities : List Entity) : List Segment :=
  if text = [] ∨ entities = [] then [{ text := text, entity := none }]
  else renderText text entities

/-- Concatenation of the rendered texts of a segment sequence, in order. -/
def segsText (segs : List Segment) : List Char :=
  (segs.map Segment.text).flatten

/-- Order on entities used by the sort: `b` may follow `a` when its literal
is no longer. -/
def lenGE (a b : Entity) : Prop := b.text.length ≤ a.text.length

/-- Tests whether `needle` matches case-insensitively at position `i` of `hay`. -/
def ciOccursAt (needle hay : List Char) (i : Nat) : Bool :=
  ciStartsWith needle (hay.drop i)

/-- The hypothesis of the spec's idempotence property: every entity's literal
occurs in the narrative, and for any two distinct entities in the list the
intervals of their case-insensitive occurrences never overlap. -/
def DisjointEntities (t : List Char) (es : List Entity) : Prop :=
  (∀ e ∈ es, ∃ i < t.length, ciOccursAt e.text t i = true) ∧
  es.Pairwise (fun e1 e2 =>
    ∀ i < t.length, ∀ j < t.length,
      ciOccursAt e1.text t i = true → ciOccursAt e2.text t j = true →
        i + e1.text.length ≤ j ∨ j + e2.text.length ≤ i)

instance (t : List Char) (es : List Entity) : Decidable (DisjointEntities t es) := by
  unfold DisjointEntities
  infer_instance

/-- The example entities of the longest-match property. -/
def coughEnt : Entity := { text := "cough".data, type := .ADE }

def dryCoughEnt : Entity :=
  { text := "dry hacking cough".data, type := .ADE, severity := some .MODERATE }

def lisEnt : Entity := { text := "lisinopril".data, type := .DRUG }

/-! ## Audio helpers (`src/components/HistorySidebar.tsx` lines 113-141) -/

/-- The value of one base64 alphabet character, `none` for a character
outside the alphabet (on which `atob` throws). -/
def b64Val (c : Char) : Option Nat :=
  if 'A' ≤ c ∧ c ≤ 'Z' then some (c.toNat - 65)
  else if 'a' ≤ c ∧ c ≤ 'z' then some (c.toNat - 97 + 26)
  else if '0' ≤ c ∧ c ≤ '9' then some (c.toNat - 48 + 52)
  else if c = '+' then some 62
  else if c = '/' then some 63
  else none

/-- Reassemble a sequence of 6-bit values into bytes: each full group of four
values yields three bytes; a final group of two or three values yields one or
two bytes; a dangling single value is malformed. -/
def b64Bytes : List Nat → Option (List Nat)
  | [] => some []
  | [_] => none
  | [a, b] => some [a * 4 + b / 16]
  | [a, b, c] => some [a * 4 + b / 16, b % 16 * 16 + c / 4]
  | a :: b :: c :: d :: rest =>
    (b64Bytes rest).map fun tail =>
      (a * 4 + b / 16) :: (b % 16 * 16 + c / 4) :: (c % 4 * 64 + d) :: tail

/-- Embeds `decodeBase64` (`HistorySidebar.tsx` lines 114-122): `atob` the base64
string and copy the code units into a byte array.  Trailing `=` padding is
stripped; an invalid character or dangling length makes `atob` throw, here
`none`. -/
def decodeBase64 (s : List Char) : Option (List Nat) := do
  let core := (s.reverse.dropWhile (· = '=')).reverse
  let vals ← core.mapM b64Val
  b64Bytes vals

/-- Embeds `new Int16Array(data.buffer)`: reinterpret the bytes as little-endian
signed 16-bit integers.  The constructor throws a `RangeError` when the byte
length is odd, hence `none` on a dangling byte. -/
def bytesToInt16 : List Nat → Option (List Int)
  | [] => some []
  | [_] => none
  | lo :: hi :: rest =>
    (bytesToInt16 rest).map fun tail =>
      (if lo + 256 * hi < 32768 then (lo + 256 * hi : Int)
       else (lo + 256 * hi : Int) - 65536) :: tail

/-- Embeds `decodeAudioData` (`HistorySidebar.tsx` lines 124-141), as the
per-channel sample matrix of the produced `AudioBuffer`.  `frameCount` is
`dataInt16.length / numChannels`: when the division is fractional,
`createBuffer` receives a non-integer length and WebIDL-truncates it, and the
copy loop's final iteration reads `undefined` and writes past the end of the
`Float32Array` — a silent no-op — so the effective content of channel `c` is
the first `⌊totalSamples / numChannels⌋` interleaved samples, each divided by
32768.0 (exact in binary floating point, embedded as `ℚ`).  `createBuffer`
throws a `NotSupportedError` for a zero channel count and also when the
truncated frame length is zero (empty data, or fewer samples than
channels). -/
def decodeAudioData (data : List Nat) (numChannels : Nat) :
    Option (List (List ℚ)) := do
  let dataInt16 ← bytesToInt16 data
  if numChannels = 0 then none
  else
    let frameCount := dataInt16.length / numChannels
    if frameCount = 0 then none
    else
      some ((List.range numChannels).map fun channel =>
        (List.range frameCount).map fun i =>
          (dataInt16.getD (i * numChannels + channel) 0 : ℚ) / 32768)

/-! ## Gemini service wrappers (`src/services/geminiService.ts`) -/

/-- Parsed JSON values, the output type of `JSON.parse`. -/
inductive Json where
  | null
  | bool (b : Bool)
  | num (n : Int)
  | str (s : List Char)
  | arr (elems : List Json)
  | obj (fields : List (List Char × Json))

/-- Does a parsed JSON object carry a top-level field of the given name? -/
def hasField (j : Json) (name : List Char) : Bool :=
  match j with
  | .obj fields => fields.any fun f => f.1 == name
  | _ => false

/-- The required top-level fields of `analysisSchema`
(`geminiService.ts` line 60). -/
def requiredTopLevel : List (List Char) :=
  ["transcript", "entities", "summary", "patientAgeGroup", "overallRiskScore",
   "clinicalReasoning", "suggestedActions", "sentiment", "classification",
   "tamilAnalysis"].map String.data

/-- An inline attachment: base64 data plus MIME type. -/
structure Attachment where
  data : List Char
  mimeType : List Char

/-- The failure modes of `analyzeClinicalContent`: the pre-dispatch
`throw new Error("No input provided")`, the post-dispatch
`throw new Error("Empty response from Gemini")`, and a `JSON.parse` throw
(rethrown unchanged by the catch block). -/
inductive AnalysisError where
  | noInput
  | emptyResponse
  | parseFailure
deriving DecidableEq, Repr

/-- What the generation service hands back in `response.text`: an absent or
empty string, a non-empty string `JSON.parse` rejects, or a non-empty string
parsing to a JSON value. -/
inductive ServiceResponse where
  | empty
  | malformed
  | payload (j : Json)

/-- The observable content of one `ai.models.generateContent` dispatch. -/
structure GenRequest where
  model : List Char
  triage : List Char
  hasAttachment : Bool
  userText : List Char

/-- Case-sensitive `String.prototype.startsWith`. -/
def litStartsWith : List Char → List Char → Bool
  | [], _ => true
  | _ :: _, [] => false
  | p :: ps, h :: hs => (p == h) && litStartsWith ps hs

/-- Embeds `geminiService.ts` lines 120-123: a non-empty `response.text` is
`JSON.parse`d and returned as `AnalysisResult` through a compile-time cast —
no runtime field validation happens — and an empty one throws. -/
def handleResponse : ServiceResponse → Except AnalysisError Json
  | .payload j => .ok j
  | .malformed => .error .parseFailure
  | .empty => .error .emptyResponse

/-- The fallback user text when only an attachment is given. -/
def defaultAttachmentText : List Char := "Analyze this clinical input.".data

/-- Embeds `analyzeClinicalContent` (`geminiService.ts` lines 63-128) with the
transport abstracted as `respond`; the second component is the ordered list
of network dispatches the call performed. -/
def analyzeClinicalContent (text : Option (List Char)) (triageLevel : List Char)
    (attachment : Option Attachment)
    (respond : GenRequest → ServiceResponse) :
    Except AnalysisError Json × List GenRequest :=
  match attachment with
  | some att =>
    let modelName :=
      if litStartsWith "image/".data att.mimeType then "gemini-3-pro-preview".data
      else if litStartsWith "audio/".data att.mimeType then "gemini-2.5-flash".data
      else if att.mimeType = "application/pdf".data then "gemini-2.5-flash".data
      else "gemini-2.5-flash".data
    let userText :=
      match text with
      | some t => if t = [] then defaultAttachmentText else t
      | none => defaultAttachmentText
    let req : GenRequest :=
      { model := modelName, triage := triageLevel, hasAttachment := true,
        userText := userText }
    (handleResponse (respond req), [req])
  | none =>
    match text with
    | some t =>
      if t = [] then (.error .noInput, [])
      else
        let req : GenRequest :=
          { model := "gemini-2.5-flash".data, triage := triageLevel,
            hasAttachment := false, userText := t }
        (handleResponse (respond req), [req])
    | none => (.error .noInput, [])

/-- A syntactically valid service payload missing `overallRiskScore`. -/
def partialPayload : Json :=
  .obj [("summary".data, .str "Patient stable.".data)]

/-- The fixed fallback reply of the chat wrapper. -/
def fallbackReply : List Char := "I could not generate a response.".data

/-- Embeds `sendChatMessage` (`geminiService.ts` lines 151-162): create a chat over
the given history, send the message, and return
`result.text || "I could not generate a response."`.  `send` abstracts the
transport; `none` stands for an absent reply text, and the JavaScript `||`
also replaces an empty reply string. -/
def sendChatMessage (message : List Char)
    (history : List (Bool × List Char))
    (send : List Char → List (Bool × List Char) → Option (List Char)) :
    List Char :=
  match send message history with
  | some t => if t = [] then fallbackReply else t
  | none => fallbackReply

/-! ## Playback session (`src/components/HistorySidebar.tsx` lines 327-359) -/

/-- The playback-related component state: the `isPlayingAudio` flag and the
currently held `AudioBufferSourceNode`, identified by a number. -/
structure PlaybackState where
  isPlayingAudio : Bool
  audioSource : Option Nat
deriving DecidableEq, Repr

/-- Calls made on audio source nodes, in program order. -/
inductive AudioEvent where
  | stop (source : Nat)
  | start (source : Nat)
deriving DecidableEq, Repr

/-- Embeds `playTTS` on its success path, as a state transition that also reports
the source-node calls it makes in order: when a playback is active,
`audioSource?.stop()` runs first and the playing flag clears; after synthesis
and decoding succeed, the fresh source `newId` is started and becomes the
active one. -/
def playTTS (st : PlaybackState) (newId : Nat) : PlaybackState × List AudioEvent :=
  let stopEvents :=
    if st.isPlayingAudio then
      match st.audioSource with
      | some old => [AudioEvent.stop old]
      | none => []
    else []
  ({ isPlayingAudio := true, audioSource := some newId },
   stopEvents ++ [AudioEvent.start newId])

/-- Embeds `source.onended`: the natural end of playback clears the playing state
and releases the source. -/
def onEnded (_ : PlaybackState) : PlaybackState :=
  { isPlayingAudio := false, audioSource := none }

theorem segsText_nil : segsText [] = [] := rfl

theorem segsText_cons (s : Segment) (rest : List Segment) :
    segsText (s :: rest) = s.text ++ segsText rest := by
  simp [segsText]

theorem segsText_append (a b : List Segment) :
    segsText (a ++ b) = segsText a ++ segsText b := by
  simp [segsText]

/-- Splitting on the empty pattern loses no characters. -/
theorem emptySplit_flatten : ∀ hay : List Char, (emptySplit hay).flatten = hay
  | [] => rfl
  | [_] => rfl
  | c :: c' :: rest => by
    simp [emptySplit, emptySplit_flatten (c' :: rest)]

/-- The split scan loses no characters: flattening its output restores the
pending run followed by the unscanned remainder, for any fuel. -/
theorem ciScan_flatten (needle : List Char) :
    ∀ (fuel : Nat) (hay acc : List Char),
      (ciScan needle fuel acc hay).flatten = acc.reverse ++ hay := by
  intro fuel
  induction fuel with
  | zero =>
    intro hay acc
    cases hay <;> simp [ciScan]
  | succ fuel ih =>
    intro hay acc
    match hay with
    | [] => simp [ciScan]
    | h :: hs =>
      rw [ciScan]
      split
      · rw [List.flatten_cons, List.flatten_cons, ih]
        simp [List.take_append_drop]
      · rw [ih]
        simp

/-- Splitting `part.text` on the entity regex loses no characters. -/
theorem ciSplitKeep_flatten (needle hay : List Char) :
    (ciSplitKeep needle hay).flatten = hay := by
  unfold ciSplitKeep
  split
  · exact emptySplit_flatten hay
  · simpa using ciScan_flatten needle hay.length hay []

/-- Classifying the split pieces and dropping the empty ones keeps exactly the
characters of the pieces. -/
theorem classify_segsText (e : Entity) :
    ∀ l : List (List Char),
      segsText (l.filterMap fun s =>
        if s = [] then none
        else if lowerEq s e.text then some ⟨s, some e⟩
        else some ⟨s, none⟩) = l.flatten := by
  intro l
  induction l with
  | nil => rfl
  | cons s rest ih =>
    by_cases hs : s = [] <;> by_cases hl : lowerEq s e.text = true <;>
      simp [hs, hl, segsText_cons, ih]

/-- One pass of the entity loop preserves the concatenated text. -/
theorem processEntity_segsText (e : Entity) :
    ∀ parts : List Segment, segsText (processEntity e parts) = segsText parts := by
  intro parts
  induction parts with
  | nil => rfl
  | cons p ps ih =>
    have step : processEntity e (p :: ps) =
        (match p.entity with
         | some _ => [p]
         | none =>
           (ciSplitKeep e.text p.text).filterMap fun s =>
             if s = [] then none
             else if lowerEq s e.text then some ⟨s, some e⟩
             else some ⟨s, none⟩) ++ processEntity e ps := by
      simp [processEntity]
    rw [step, segsText_append, ih, segsText_cons]
    congr 1
    cases hp : p.entity with
    | some e' => simp [segsText_cons, segsText_nil]
    | none =>
      exact (classify_segsText e (ciSplitKeep e.text p.text)).trans
        (ciSplitKeep_flatten e.text p.text)

/-- Folding any entity list over any starting parts preserves the
concatenated text. -/
theorem foldl_processEntity_segsText :
    ∀ (l : List Entity) (parts : List Segment),
      segsText (l.foldl (fun parts e => processEntity e parts) parts) =
        segsText parts := by
  intro l
  induction l with
  | nil => intro parts; rfl
  | cons e rest ih =>
    intro parts
    rw [List.foldl_cons, ih, processEntity_segsText]

/-- Folding `renderText` reproduces the narrative on concatenation. -/
theorem renderText_segsText (t : List Char) (es : List Entity) :
    segsText (renderText t es) = t := by
  unfold renderText
  rw [foldl_processEntity_segsText]
  simp [segsText]

/-- The annotator reproduces the narrative on concatenation, for every
narrative and every entity list. -/
theorem annotate_segsText (t : List Char) (es : List Entity) :
    segsText (annotate t es) = t := by
  unfold annotate
  split
  · simp [segsText]
  · exact renderText_segsText t es

/-- Every segment the annotator emits is a contiguous piece of the original
narrative, in the narrative's own casing. -/
theorem annotate_mem_occurs (t : List Char) (es : List Entity) (s : Segment)
    (hs : s ∈ annotate t es) : ∃ l r, t = l ++ s.text ++ r := by
  obtain ⟨pre, post, hsplit⟩ := List.append_of_mem hs
  refine ⟨segsText pre, segsText post, ?_⟩
  conv_lhs => rw [← annotate_segsText t es]
  rw [hsplit, segsText_append, segsText_cons]
  simp

theorem insertByLen_perm (e : Entity) :
    ∀ l : List Entity, (insertByLen e l).Perm (e :: l) := by
  intro l
  induction l with
  | nil => exact List.Perm.refl _
  | cons x xs ih =>
    unfold insertByLen
    split
    · exact List.Perm.refl _
    · exact ((ih.cons x).trans (List.Perm.swap e x xs))

/-- The sorted entity list is a permutation of the input. -/
theorem sortEntities_perm (es : List Entity) : (sortEntities es).Perm es := by
  unfold sortEntities
  induction es with
  | nil => exact List.Perm.refl _
  | cons e rest ih =>
    exact (insertByLen_perm e _).trans (ih.cons e)

theorem mem_insertByLen {b e : Entity} {l : List Entity}
    (h : b ∈ insertByLen e l) : b = e ∨ b ∈ l := by
  have := (insertByLen_perm e l).mem_iff.mp h
  simpa using this

theorem insertByLen_pairwise (e : Entity) :
    ∀ l : List Entity, l.Pairwise lenGE → (insertByLen e l).Pairwise lenGE := by
  intro l
  induction l with
  | nil => intro _; simp [insertByLen, lenGE]
  | cons x xs ih =>
    intro hp
    rw [List.pairwise_cons] at hp
    unfold insertByLen
    split
    · next hge =>
      rw [List.pairwise_cons]
      refine ⟨?_, List.pairwise_cons.mpr hp⟩
      intro b hb
      rcases List.mem_cons.mp hb with hbx | hbxs
      · subst hbx; exact hge
      · exact Nat.le_trans (hp.1 b hbxs) hge
    · next hlt =>
      rw [List.pairwise_cons]
      refine ⟨?_, ih hp.2⟩
      intro b hb
      rcases mem_insertByLen hb with hbe | hbxs
      · subst hbe
        exact Nat.le_of_lt (Nat.lt_of_not_le hlt)
      · exact hp.1 b hbxs

/-- The sorted entity list is in descending order of literal length. -/
theorem sortEntities_sorted (es : List Entity) :
    (sortEntities es).Pairwise lenGE := by
  unfold sortEntities
  induction es with
  | nil => exact List.Pairwise.nil
  | cons e rest ih => exact insertByLen_pairwise e _ ih

/-- A part already tagged by an earlier entity survives a later pass
untouched: the loop pushes it straight through. -/
theorem processEntity_keeps_tagged (e : Entity) (parts : List Segment)
    (p : Segment) (hp : p ∈ parts) (ht : p.entity ≠ none) :
    p ∈ processEntity e parts := by
  unfold processEntity
  rw [List.mem_flatMap]
  refine ⟨p, hp, ?_⟩
  cases he : p.entity with
  | none => exact absurd he ht
  | some e' => simp

/-- Reinterpretation via `bytesToInt16` succeeds on an even byte count and yields half as many
samples. -/
theorem bytesToInt16_even :
    ∀ data : List Nat, data.length % 2 = 0 →
      ∃ l, bytesToInt16 data = some l ∧ l.length = data.length / 2
  | [], _ => ⟨[], rfl, rfl⟩
  | [_], h => by simp at h
  | lo :: hi :: rest, h => by
    have h' : rest.length % 2 = 0 := by
      simp only [List.length_cons] at h
      omega
    obtain ⟨l, hl, hlen⟩ := bytesToInt16_even rest h'
    have heq : bytesToInt16 (lo :: hi :: rest) =
        some ((if lo + 256 * hi < 32768 then ((lo : Int) + 256 * hi)
               else ((lo : Int) + 256 * hi) - 65536) :: l) := by
      simp [bytesToInt16, hl]
    refine ⟨_, heq, ?_⟩
    simp only [List.length_cons, hlen]
    omega

/-! ## The claims -/

/-- Claim C10: for every narrative string and every entity list — overlapping,
duplicated, absent or empty literals included — concatenating the texts of
the annotator's segments in output order reproduces the narrative exactly. -/
theorem claim_C10 (t : List Char) (es : List Entity) :
    segsText (annotate t es) = t :=
  annotate_segsText t es

/-- Claim C4: for a narrative and entities whose literals are pairwise
non-overlapping substrings of it, annotating twice yields identical segment
sequences, and concatenating the segment texts reproduces the narrative. -/
theorem claim_C4 (t : List Char) (es : List Entity)
    (_h : DisjointEntities t es) :
    annotate t es = annotate t es ∧ segsText (annotate t es) = t :=
  ⟨rfl, annotate_segsText t es⟩

theorem claim_C4_witness :
    DisjointEntities "ab cd".data
      [{ text := "ab".data, type := .DRUG }, { text := "cd".data, type := .ADE }] ∧
    segsText (annotate "ab cd".data
      [{ text := "ab".data, type := .DRUG }, { text := "cd".data, type := .ADE }]) =
      "ab cd".data :=
  ⟨by decide,
   (claim_C4 "ab cd".data
      [{ text := "ab".data, type := .DRUG }, { text := "cd".data, type := .ADE }]
      (by decide)).2⟩

/-- Claim C2: on narrative `"dry hacking cough"` with entities `"cough"` and
`"dry hacking cough"`, the annotator yields exactly one matched segment,
covering the whole phrase and tagged with the longer entity; in general
entities are processed in descending literal length (a stable descending
sort, hence a permutation), and a segment tagged by an earlier entity passes
through a later entity's pass untouched. -/
theorem claim_C2 :
    annotate "dry hacking cough".data [coughEnt, dryCoughEnt] =
      [{ text := "dry hacking cough".data, entity := some dryCoughEnt }] ∧
    (∀ es : List Entity,
      (sortEntities es).Pairwise lenGE ∧ (sortEntities es).Perm es) ∧
    (∀ (e : Entity) (parts : List Segment) (p : Segment),
      p ∈ parts → p.entity ≠ none → p ∈ processEntity e parts) :=
  ⟨by decide,
   fun es => ⟨sortEntities_sorted es, sortEntities_perm es⟩,
   fun e parts p hp ht => processEntity_keeps_tagged e parts p hp ht⟩

theorem claim_C2_witness :
    annotate "dry hacking cough".data [coughEnt, dryCoughEnt] =
      [{ text := "dry hacking cough".data, entity := some dryCoughEnt }] ∧
    ({ text := "x".data, entity := some coughEnt } : Segment) ∈
      processEntity dryCoughEnt [{ text := "x".data, entity := some coughEnt }] :=
  ⟨claim_C2.1,
   claim_C2.2.2 dryCoughEnt [{ text := "x".data, entity := some coughEnt }]
     { text := "x".data, entity := some coughEnt } (by decide) (by decide)⟩

/-- Claim C7: narrative `"Lisinopril 10mg"` with entity `"lisinopril"` yields
a matched DRUG segment rendered as `"Lisinopril"`, in the narrative's
casing; in general every emitted segment is a contiguous piece of the
original narrative, hence carries its original casing. -/
theorem claim_C7 :
    annotate "Lisinopril 10mg".data [lisEnt] =
      [{ text := "Lisinopril".data, entity := some lisEnt },
       { text := " 10mg".data, entity := none }] ∧
    (∀ (t : List Char) (es : List Entity) (s : Segment),
      s ∈ annotate t es → ∃ l r, t = l ++ s.text ++ r) :=
  ⟨by decide, fun t es s hs => annotate_mem_occurs t es s hs⟩

theorem claim_C7_witness :
    annotate "Lisinopril 10mg".data [lisEnt] =
      [{ text := "Lisinopril".data, entity := some lisEnt },
       { text := " 10mg".data, entity := none }] ∧
    ∃ l r, "Lisinopril 10mg".data =
      l ++ ({ text := "Lisinopril".data, entity := some lisEnt } : Segment).text ++ r :=
  ⟨claim_C7.1,
   claim_C7.2 "Lisinopril 10mg".data [lisEnt]
     { text := "Lisinopril".data, entity := some lisEnt } (by decide)⟩

/-- Claim C3 counterexample: the bytes `[0, 0]` hold one 16-bit sample, not
evenly divisible between two channels — a case the claim says still
succeeds — yet the decode fails: the truncated frame count is zero and
`createBuffer` throws a `NotSupportedError`. -/
theorem claim_C3_cex :
    [0, 0].length % 2 = 0 ∧ 0 < 2 ∧ ([0, 0].length / 2) % 2 ≠ 0 ∧
    decodeAudioData [0, 0] 2 = none := by
  decide

/-- Claim C3 (amended): on an even-length byte input and a positive channel
count no larger than the sample count, the decode succeeds and yields
`⌊totalSamples / channelCount⌋` samples per channel — a division remainder is
truncated, not an error; when there are fewer samples than channels the
truncated frame count is zero and `createBuffer` throws. -/
theorem claim_C3 (data : List Nat) (numChannels : Nat)
    (hev : data.length % 2 = 0) (hch : 0 < numChannels)
    (hle : numChannels ≤ data.length / 2) :
    ∃ channels, decodeAudioData data numChannels = some channels ∧
      channels.length = numChannels ∧
      ∀ ch ∈ channels, ch.length = data.length / 2 / numChannels := by
  obtain ⟨l, hl, hlen⟩ := bytesToInt16_even data hev
  have hnz : numChannels ≠ 0 := Nat.pos_iff_ne_zero.mp hch
  have hframe : l.length / numChannels ≠ 0 :=
    Nat.pos_iff_ne_zero.mp (Nat.div_pos (hlen ▸ hle) hch)
  have heq : decodeAudioData data numChannels =
      some ((List.range numChannels).map fun channel =>
        (List.range (l.length / numChannels)).map fun i =>
          (l.getD (i * numChannels + channel) 0 : ℚ) / 32768) := by
    unfold decodeAudioData
    rw [hl]
    simp [hnz, hframe]
  refine ⟨_, heq, by simp, ?_⟩
  intro ch hch'
  simp only [List.mem_map] at hch'
  obtain ⟨c, _, hc⟩ := hch'
  simp [← hc, hlen]

theorem claim_C3_witness :
    [0, 0, 1, 0, 2, 0].length % 2 = 0 ∧ 0 < 2 ∧
    2 ≤ [0, 0, 1, 0, 2, 0].length / 2 ∧
    ∃ channels, decodeAudioData [0, 0, 1, 0, 2, 0] 2 = some channels ∧
      channels.length = 2 ∧
      ∀ ch ∈ channels, ch.length = [0, 0, 1, 0, 2, 0].length / 2 / 2 :=
  ⟨by decide, by decide, by decide,
   claim_C3 [0, 0, 1, 0, 2, 0] 2 (by decide) (by decide) (by decide)⟩

/-- Claim C6: decoding the little-endian 16-bit PCM samples
`[1000, -1000, 32767, -32768]` from their base64 encoding with one channel
yields exactly those four amplitudes divided by 32768, each within
`[-1, 1]`. -/
theorem claim_C6 :
    (decodeBase64 "6AMY/P9/AIA=".data).bind (fun b => decodeAudioData b 1) =
      some [[(1000 : ℚ) / 32768, (-1000 : ℚ) / 32768,
             (32767 : ℚ) / 32768, (-32768 : ℚ) / 32768]] ∧
    ∀ q ∈ [(1000 : ℚ) / 32768, (-1000 : ℚ) / 32768,
           (32767 : ℚ) / 32768, (-32768 : ℚ) / 32768], -1 ≤ q ∧ q ≤ 1 := by
  have h1 : decodeBase64 "6AMY/P9/AIA=".data =
      some [232, 3, 24, 252, 255, 127, 0, 128] := by decide
  have h2 : bytesToInt16 [232, 3, 24, 252, 255, 127, 0, 128] =
      some [1000, -1000, 32767, -32768] := by decide
  constructor
  · rw [h1]
    show decodeAudioData [232, 3, 24, 252, 255, 127, 0, 128] 1 = _
    unfold decodeAudioData
    rw [h2]
    norm_num [List.range_succ]
    intro h
    exact absurd h (by decide)
  · intro q hq
    fin_cases hq <;> constructor <;> norm_num

/-- Claim C1 counterexample: a payload that parses as JSON but misses the
required field `overallRiskScore` is returned as a partially-populated
result — the analysis call does not fail on it. -/
theorem claim_C1_cex :
    "overallRiskScore".data ∈ requiredTopLevel ∧
    hasField partialPayload "overallRiskScore".data = false ∧
    (analyzeClinicalContent (some "note".data) "Routine".data none
        (fun _ => .payload partialPayload)).1 = .ok partialPayload :=
  ⟨by decide, rfl, rfl⟩

/-- Claim C1 (amended): `analyzeClinicalContent` fails only on an empty
payload or a `JSON.parse` failure; a payload that parses as JSON is returned
as-is, with no validation of the schema's required top-level fields, even
when one such field (e.g. `overallRiskScore`) is missing. -/
theorem claim_C1 (t triage : List Char) (ht : t ≠ []) (j : Json)
    (_hmiss : hasField j "overallRiskScore".data = false) :
    (analyzeClinicalContent (some t) triage none (fun _ => .payload j)).1 = .ok j ∧
    (analyzeClinicalContent (some t) triage none (fun _ => .empty)).1 =
      .error .emptyResponse ∧
    (analyzeClinicalContent (some t) triage none (fun _ => .malformed)).1 =
      .error .parseFailure := by
  unfold analyzeClinicalContent
  simp [ht, handleResponse]

theorem claim_C1_witness :
    "note".data ≠ [] ∧
    hasField partialPayload "overallRiskScore".data = false ∧
    (analyzeClinicalContent (some "note".data) "Routine".data none
        (fun _ => .payload partialPayload)).1 = .ok partialPayload :=
  ⟨by decide, rfl,
   (claim_C1 "note".data "Routine".data (by decide) partialPayload rfl).1⟩

/-- Claim C5: with empty text and no attachment the call fails before
dispatch with the invalid-input error, and the dispatch log stays empty — no
network call is made.  Both falsy forms of the text argument are covered. -/
theorem claim_C5 (triage : List Char) (respond : GenRequest → ServiceResponse) :
    analyzeClinicalContent (some []) triage none respond =
      (.error .noInput, []) ∧
    analyzeClinicalContent none triage none respond =
      (.error .noInput, []) :=
  ⟨rfl, rfl⟩

/-- Claim C9: the chat send returns the model's reply when it is non-empty
and the fixed fallback when the reply is empty or absent, and never returns
an empty string. -/
theorem claim_C9 (message : List Char) (history : List (Bool × List Char))
    (send : List Char → List (Bool × List Char) → Option (List Char)) :
    (∀ reply, send message history = some reply → reply ≠ [] →
      sendChatMessage message history send = reply) ∧
    (send message history = some [] ∨ send message history = none →
      sendChatMessage message history send = fallbackReply) ∧
    sendChatMessage message history send ≠ [] := by
  refine ⟨?_, ?_, ?_⟩
  · intro reply hr hne
    simp [sendChatMessage, hr, hne]
  · intro h
    rcases h with h | h <;> simp [sendChatMessage, h]
  · unfold sendChatMessage
    cases hr : send message history with
    | none => decide
    | some reply =>
      by_cases hne : reply = []
      · simp only [hne, if_pos rfl]
        decide
      · simp only [if_neg hne]
        exact hne

theorem claim_C9_witness :
    (fun _ _ => some "hello".data :
      List Char → List (Bool × List Char) → Option (List Char)) "hi".data [] =
        some "hello".data ∧
    "hello".data ≠ [] ∧
    sendChatMessage "hi".data [] (fun _ _ => some "hello".data) = "hello".data :=
  ⟨rfl, by decide,
   (claim_C9 "hi".data [] (fun _ _ => some "hello".data)).1 "hello".data rfl
     (by decide)⟩

/-- Claim C8: invoking `playTTS` while a playback is active stops the active
source before starting the new one — the emitted call trace is exactly
`stop old` then `start new` — and afterwards the new source is the single
active one. -/
theorem claim_C8 (st : PlaybackState) (old newId : Nat)
    (hactive : st.isPlayingAudio = true) (hsrc : st.audioSource = some old) :
    (playTTS st newId).2 = [.stop old, .start newId] ∧
    (playTTS st newId).1 =
      { isPlayingAudio := true, audioSource := some newId } := by
  simp [playTTS, hactive, hsrc]

theorem claim_C8_witness :
    (⟨true, some 0⟩ : PlaybackState).isPlayingAudio = true ∧
    (⟨true, some 0⟩ : PlaybackState).audioSource = some 0 ∧
    (playTTS ⟨true, some 0⟩ 1).2 = [.stop 0, .start 1] :=
  ⟨rfl, rfl, (claim_C8 ⟨true, some 0⟩ 0 1 rfl rfl).1⟩

end ADEGuard
